import Mathlib

/-!
Verification of the contextual retrieval orchestrator of the
backend_bagavad_gita repository.

The Python sources are shallowly embedded: pure functions become Lean
functions over `String`, `Rat` and lists; the process-wide response cache
and the per-session conversation store become explicit state values that
every operation threads; the external collaborators (OpenAI embeddings,
Pinecone vector search, the LLM generator, Supabase) are environment
records of oracles, and the pipeline additionally returns a call log
counting how often each collaborator was invoked.

Python floats are modeled as exact rationals, Python strings as Lean
strings (string primitives such as strip, lower, split and substring
membership are re-implemented on the character list to mirror the Python
semantics), and Python dicts holding the cache and the conversations as
association lists in insertion order, which is exactly the iteration
order Python guarantees.
-/

namespace Gita

/-! ### Python string primitives

Character-list implementations of the string operations the source uses:
str.strip, str.lower, str.split() with no separator, and the substring
membership test sub in s. -/

/-- Python str.strip with no arguments: remove leading and trailing
whitespace. -/
def pyStrip (s : String) : String :=
  String.mk (((s.data.dropWhile Char.isWhitespace).reverse.dropWhile
    Char.isWhitespace).reverse)

/-- Python str.lower, on the ASCII range the source exercises. -/
def pyLower (s : String) : String :=
  String.mk (s.data.map Char.toLower)

/-- Splits a character list at whitespace runs, discarding empties, with
an accumulator for the word currently being read (reversed). -/
def wordsAux : List Char → List Char → List String
  | [], acc => if acc.isEmpty then [] else [String.mk acc.reverse]
  | c :: cs, acc =>
    if c.isWhitespace then
      if acc.isEmpty then wordsAux cs []
      else String.mk acc.reverse :: wordsAux cs []
    else wordsAux cs (c :: acc)

/-- Python str.split with no arguments: split at whitespace runs, no
empty components. -/
def pyWords (s : String) : List String :=
  wordsAux s.data []

/-- Occurrence test for a character list inside another. -/
def containsList (hay needle : List Char) : Bool :=
  match hay with
  | [] => needle.isEmpty
  | _ :: t => needle.isPrefixOf hay || containsList t needle

/-- Python substring membership test, sub in s. -/
def pyContains (s sub : String) : Bool :=
  containsList s.data sub.data

/-! ### normalize_query (app/routers/chat.py lines 205-232) -/

/-- Embedding of normalize_query: lower-case and strip, then append
expansion terms for the first matching trigger substring of the
if/elif chain. -/
def normalize_query (query : String) : String :=
  let normalized := pyLower (pyStrip query)
  if pyContains normalized "what is" then
    normalized ++ " define explain meaning concept"
  else if pyContains normalized "dharma" then
    normalized ++ " duty righteousness moral obligation"
  else if pyContains normalized "karma" then
    normalized ++ " action deeds consequences"
  else if pyContains normalized "moksha" then
    normalized ++ " liberation freedom enlightenment"
  else if pyContains normalized "yoga" then
    normalized ++ " discipline practice union"
  else if pyContains normalized "bhakti" then
    normalized ++ " devotion love worship"
  else if pyContains normalized "jnana" then
    normalized ++ " knowledge wisdom understanding"
  else if pyContains normalized "karma yoga" then
    normalized ++ " action without attachment selfless service"
  else if pyContains normalized "bhakti yoga" then
    normalized ++ " devotional service love for god"
  else if pyContains normalized "jnana yoga" then
    normalized ++ " path of knowledge wisdom"
  else normalized

/-! ### analyze_query_intent (app/routers/chat.py lines 566-597) -/

/-- Digit run to a natural number, as int() of a regex group of digits. -/
def digitsToNat (ds : List Char) : Nat :=
  ds.foldl (fun n c => 10 * n + (c.toNat - 48)) 0

/-- Embedding of re.findall applied to the pattern chapter-whitespace-digits:
scan left to right, collecting every match. Python findall resumes after
the end of each match; resuming at the next character is equivalent here,
because a matched stretch consists of the word chapter, whitespace and
digits, so no further occurrence of the word chapter can begin inside it. -/
def findChapterNums : List Char → List Nat
  | [] => []
  | c :: cs =>
    if "chapter".data.isPrefixOf (c :: cs) then
      let rest2 := (cs.drop 6).dropWhile Char.isWhitespace
      let digits := rest2.takeWhile Char.isDigit
      if digits.isEmpty then findChapterNums cs
      else digitsToNat digits :: findChapterNums cs
    else findChapterNums cs

/-- Result record of analyze_query_intent. -/
structure Intent where
  query_type : String
  is_structured_request : Bool
  chapter_numbers : List Nat
  needs_comprehensive_context : Bool
deriving DecidableEq, Repr

/-- Embedding of analyze_query_intent: classify the lower-cased query by
keyword sets and extract chapter numbers. -/
def analyze_query_intent (query : String) : Intent :=
  let ql := pyLower query
  let summary_keywords := ["summary", "summarize", "overview", "brief",
    "main points", "key points"]
  let analysis_keywords := ["analyze", "analysis", "explain", "discuss",
    "describe"]
  let learning_keywords := ["learn", "teachings", "lessons", "insights",
    "wisdom"]
  let structure_keywords := ["outline", "structure", "organization",
    "sections"]
  let query_type :=
    if summary_keywords.any (fun k => pyContains ql k) then "summary"
    else if analysis_keywords.any (fun k => pyContains ql k) then "analysis"
    else if learning_keywords.any (fun k => pyContains ql k) then "learning"
    else if structure_keywords.any (fun k => pyContains ql k) then "structure"
    else "general"
  { query_type := query_type
    is_structured_request := query_type ≠ "general"
    chapter_numbers := findChapterNums ql.data
    needs_comprehensive_context :=
      query_type ∈ ["summary", "analysis", "learning", "structure"] }

/-- Embedding of expand_query_for_structured_content: append type-specific
terms, then per chapter number append chapter terms and common Gita terms. -/
def expand_query_for_structured_content (query : String) (intent : Intent) :
    String :=
  let expanded :=
    if intent.query_type = "summary" then
      query ++ " main themes concepts teachings key ideas important points overview"
    else if intent.query_type = "analysis" then
      query ++ " detailed explanation concepts meaning significance interpretation"
    else if intent.query_type = "learning" then
      query ++ " teachings lessons wisdom insights guidance principles"
    else if intent.query_type = "structure" then
      query ++ " organization sections parts flow sequence"
    else query
  intent.chapter_numbers.foldl
    (fun e n => e ++ " chapter " ++ toString n ++ " content text verses"
      ++ " dharma karma yoga bhakti jnana moksha")
    expanded

/-! ### Reranking (app/routers/chat.py lines 234-291)

A chunk dict built by the all_matches loop carries text, chunk_id and
score; the metadata dict it also carries is dropped here because no claim
and no reranking computation reads it. -/

/-- A candidate chunk as built in the all_matches loop. -/
structure Chunk where
  text : String
  chunk_id : String
  score : ℚ
deriving DecidableEq, Repr

/-- A chunk after reranking, with the added rerank_score key. -/
structure RerankedChunk where
  text : String
  chunk_id : String
  score : ℚ
  rerank_score : ℚ
deriving DecidableEq, Repr

/-- Word set of a text: case-folded whitespace tokenization, as a set. -/
def word_set (s : String) : Finset String :=
  (pyWords (pyLower s)).toFinset

/-- Keyword overlap of a query with a chunk text: intersection size over
query word count, 0 when the query has no words. -/
def keyword_overlap (query text : String) : ℚ :=
  if (word_set query).card = 0 then 0
  else ((word_set query ∩ word_set text).card : ℚ) / ((word_set query).card : ℚ)

/-- Length bonus of a chunk text: length over 1000, capped at 0.2. -/
def length_bonus (text : String) : ℚ :=
  min ((text.length : ℚ) / 1000) (2 / 10)

/-- Inner scoring function calculate_relevance_score of rerank_chunks. -/
def calculate_relevance_score (query : String) (c : Chunk) : RerankedChunk :=
  { text := c.text, chunk_id := c.chunk_id, score := c.score
    rerank_score := c.score * (6 / 10) + keyword_overlap query c.text * (3 / 10)
      + length_bonus c.text * (1 / 10) }

/-- Inner scoring function calculate_relevance_score_fast of
rerank_chunks_fast. -/
def calculate_relevance_score_fast (query : String) (c : Chunk) :
    RerankedChunk :=
  { text := c.text, chunk_id := c.chunk_id, score := c.score
    rerank_score := c.score * (7 / 10) + keyword_overlap query c.text * (3 / 10) }

/-- Descending comparison on rerank_score. Python sorted with reverse
true is a stable descending sort: any stable sort under this total
preorder produces that output, and insertion sort below is one. -/
def rerankLE (a b : RerankedChunk) : Prop :=
  b.rerank_score ≤ a.rerank_score

instance rerankLE_decidable : DecidableRel rerankLE :=
  fun a b => inferInstanceAs (Decidable (b.rerank_score ≤ a.rerank_score))

instance rerankLE_total : IsTotal RerankedChunk rerankLE :=
  ⟨fun a b => le_total b.rerank_score a.rerank_score⟩

instance rerankLE_trans : IsTrans RerankedChunk rerankLE :=
  ⟨fun _ _ _ hab hbc => le_trans hbc hab⟩

/-- Embedding of rerank_chunks: score every chunk, then stable-sort
descending by rerank_score. -/
def rerank_chunks (query : String) (chunks : List Chunk) :
    List RerankedChunk :=
  (chunks.map (calculate_relevance_score query)).insertionSort rerankLE

/-- Embedding of rerank_chunks_fast: score with the simplified formula,
then stable-sort descending by rerank_score. -/
def rerank_chunks_fast (query : String) (chunks : List Chunk) :
    List RerankedChunk :=
  (chunks.map (calculate_relevance_score_fast query)).insertionSort rerankLE

/-! ### Response cache (app/routers/chat.py lines 12-49)

The module-level dict response_cache is modeled as an association list in
insertion order with unique keys, which is how Python iterates a dict.
The MD5 hex digest of the normalized query is modeled as the normalized
string itself: an injective stand-in for a hash the code treats as
collision free. -/

/-- A response dict of process_chat_query. The three response shapes of
the source (validation failure, no-answer, full answer) are one structure
here; a key absent from the corresponding Python dict is none. -/
structure Response where
  answer : String
  confidence : ℚ
  sources : List RerankedChunk
  total_sources_found : Option Nat
  context_quality : Option String
  response_type : Option String
  available_chapters : Option (List Nat)
deriving DecidableEq, Repr

/-- A value of the response_cache dict. -/
structure CacheEntry where
  response : Response
  timestamp : ℚ
deriving DecidableEq, Repr

/-- The response_cache dict, keys in insertion order. -/
abbrev CacheState := List (String × CacheEntry)

/-- Embedding of get_cache_key. -/
def get_cache_key (query : String) : String :=
  normalize_query query

/-- Dict membership and read, cache_key in response_cache. -/
def cacheLookup (st : CacheState) (k : String) : Option CacheEntry :=
  (st.find? (fun p => decide (p.1 = k))).map (fun p => p.2)

/-- Dict write: overwrite in place when the key is present, else append,
as a Python dict does. -/
def insertOrReplace (st : CacheState) (k : String) (e : CacheEntry) :
    CacheState :=
  if st.any (fun p => decide (p.1 = k)) then
    st.map (fun p => if p.1 = k then (k, e) else p)
  else st ++ [(k, e)]

/-- Dict del of a key. -/
def eraseKey (st : CacheState) (k : String) : CacheState :=
  st.filter (fun p => decide (p.1 ≠ k))

/-- Scan of min over the remaining keys, keeping the current best; Python
min returns the first key attaining the minimum timestamp in iteration
order, so the best is replaced only on a strictly smaller timestamp. -/
def minTsKeyGo (best : String) (bt : ℚ) : CacheState → String
  | [] => best
  | (k, e) :: rest =>
    if e.timestamp < bt then minTsKeyGo k e.timestamp rest
    else minTsKeyGo best bt rest

/-- Embedding of min over response_cache keys by entry timestamp. -/
def minTsKey : CacheState → Option String
  | [] => none
  | (k, e) :: rest => some (minTsKeyGo k e.timestamp rest)

/-- The TTL constant CACHE_TTL. -/
def CACHE_TTL : ℚ := 300

/-- Embedding of get_cached_response: return the entry under the key of
the query while its age is below the TTL; purge an expired entry on read.
The pair carries the possibly purged cache alongside the result. -/
def get_cached_response (st : CacheState) (now : ℚ) (query : String) :
    Option Response × CacheState :=
  let key := get_cache_key query
  match cacheLookup st key with
  | none => (none, st)
  | some e =>
    if now - e.timestamp < CACHE_TTL then (some e.response, st)
    else (none, eraseKey st key)

/-- Embedding of cache_response: insert or overwrite under the key of the
query with the current time, then, when the size is above 200, evict the
key with the smallest timestamp. -/
def cache_response (st : CacheState) (now : ℚ) (query : String)
    (resp : Response) : CacheState :=
  let st1 := insertOrReplace st (get_cache_key query) ⟨resp, now⟩
  if 200 < st1.length then
    match minTsKey st1 with
    | some k => eraseKey st1 k
    | none => st1
  else st1

/-- Iterated cache_response over a list of timestamped query and response
pairs, oldest first. -/
def putSeq (st : CacheState) (items : List (ℚ × String × Response)) :
    CacheState :=
  items.foldl (fun s it => cache_response s it.1 it.2.1 it.2.2) st

/-! ### process_chat_query (app/routers/chat.py lines 293-396)

External collaborators are an environment of oracles. The helper
validate_query_against_available_content is abstracted as one oracle,
because its outcome is a function of the external vector index it
samples; its result dict shape is kept. A call log counts the calls to
the embedding, vector-search and generation collaborators. -/

/-- A match returned by the Pinecone index query: score, plus the two
metadata entries the pipeline reads, text and chunk_id (the latter
already defaulted to the string unknown when absent). -/
structure PineMatch where
  score : ℚ
  text : String
  chunk_id : String
deriving DecidableEq, Repr

/-- Result dict shape of validate_query_against_available_content. -/
structure Validation where
  is_valid : Bool
  message : String
  available_chapters : List Nat
deriving DecidableEq, Repr

/-- The external collaborators of the chat router. -/
structure Env where
  validate : String → Validation
  embed : String → List ℚ
  search : List ℚ → List PineMatch
  generate : String → String → String

/-- Counts of calls to the external embed, search and generate
collaborators during one request. -/
structure CallLog where
  embeds : Nat
  searches : Nat
  generates : Nat
deriving DecidableEq, Repr

/-- Outcome of process_chat_query: a response or a raised HTTPException
with status code and detail, the call log and the cache afterwards. -/
structure PCQOutcome where
  result : Except (Nat × String) Response
  log : CallLog
  cache : CacheState

/-- The canned no-information answer string of the source. -/
def noInfoAnswer : String :=
  "I don\x27t have information about this topic, Please try rephrasing your question or ask about a different topic."

/-- The no-answer response dict: canned answer, given confidence, no
sources. -/
def noInfoResponse (confidence : ℚ) : Response :=
  { answer := noInfoAnswer, confidence := confidence, sources := []
    total_sources_found := none, context_quality := none
    response_type := none, available_chapters := none }

/-- The combined query string sent to the embedder, after normalization
and intent-dependent expansion. -/
def combined_query (query : String) : String :=
  let intent := analyze_query_intent query
  let normalized := normalize_query query
  if intent.needs_comprehensive_context then
    query ++ " " ++ normalized ++ " "
      ++ expand_query_for_structured_content query intent
  else if normalized ≠ query then query ++ " " ++ normalized else query

/-- The intent-dependent minimum-score gate threshold. -/
def min_score_of (intent : Intent) : ℚ :=
  if intent.needs_comprehensive_context then 3 / 10 else 5 / 10

/-- The all_matches loop: keep the matches strictly above the threshold,
in result order, as chunk dicts. -/
def build_all_matches (min_score : ℚ) (results : List PineMatch) :
    List Chunk :=
  (results.filter (fun m => decide (min_score < m.score))).map
    (fun m => { text := m.text, chunk_id := m.chunk_id, score := m.score })

/-- Context quality tag of the final response. -/
def context_quality_of (rs : ℚ) : String :=
  if 7 / 10 < rs then "high" else if 5 / 10 < rs then "medium" else "low"

/-- Two-decimal rendering of a score for the context block. The Python
source renders with a two-decimal float format; the exact rounding of
the rendered digits is immaterial to every claim, as the string only
feeds the external generator. -/
def formatScore (q : ℚ) : String :=
  toString (q * 100).floor

/-- Evidence block assembly: one labeled passage per context chunk. -/
def format_context (chunks : List RerankedChunk) : String :=
  String.intercalate "\n\n"
    ((chunks.enumFrom 1).map (fun p =>
      "Source " ++ toString p.1 ++ " (Score: " ++ formatScore p.2.score
        ++ "): " ++ p.2.text))

/-- Detail string of the HTTPException surfaced for a blank query: the
status 400 exception raised inside the try block is caught by the
catch-all handler and re-raised as status 500 with the stringified
exception appended. -/
def emptyQueryDetail : String :=
  "Error processing query: 400: Query cannot be empty"

/-- Embedding of process_chat_query: blank-query rejection, cache lookup,
intent analysis, validation, retrieval, threshold gate, reranking,
context assembly, generation, cache write. -/
def process_chat_query (env : Env) (st : CacheState) (now : ℚ)
    (query : String) : PCQOutcome :=
  if pyStrip query = "" then
    { result := .error (500, emptyQueryDetail), log := ⟨0, 0, 0⟩, cache := st }
  else
    let hit := get_cached_response st now query
    match hit.1 with
    | some r => { result := .ok r, log := ⟨0, 0, 0⟩, cache := hit.2 }
    | none =>
      let st1 := hit.2
      let intent := analyze_query_intent query
      let v := env.validate query
      if v.is_valid = false then
        { result := .ok
            { answer := v.message, confidence := 0, sources := []
              total_sources_found := none, context_quality := none
              response_type := none
              available_chapters := some v.available_chapters }
          log := ⟨0, 0, 0⟩, cache := st1 }
      else
        let vec := env.embed (combined_query query)
        let results := env.search vec
        let min_score := min_score_of intent
        match results with
        | [] =>
          { result := .ok (noInfoResponse 0), log := ⟨1, 1, 0⟩, cache := st1 }
        | m0 :: _ =>
          if m0.score < min_score then
            { result := .ok (noInfoResponse m0.score), log := ⟨1, 1, 0⟩
              cache := st1 }
          else
            let all_matches := build_all_matches min_score results
            match rerank_chunks_fast query all_matches with
            | [] =>
              { result := .ok (noInfoResponse 0), log := ⟨1, 1, 0⟩
                cache := st1 }
            | r0 :: rs =>
              let reranked := r0 :: rs
              let max_chunks := if intent.needs_comprehensive_context
                then 8 else 5
              let context_chunks := reranked.take max_chunks
              let context := format_context context_chunks
              let answer := env.generate query context
              let response : Response :=
                { answer := answer, confidence := r0.rerank_score
                  sources := context_chunks.take 3
                  total_sources_found := some reranked.length
                  context_quality :=
                    some (context_quality_of r0.rerank_score)
                  response_type := some "comprehensive"
                  available_chapters := none }
              { result := .ok response, log := ⟨1, 1, 1⟩
                cache := cache_response st1 now query response }

/-! ### MemoryContextService (app1/services/memory_context_service.py)

The defaultdict of conversations is an association list from session id
to the list of stored message dicts, in insertion order. The externally
generated uuid and timestamp of a message are passed in as arguments. -/

/-- A message dict as built by store_message. -/
structure StoredMessage where
  id : String
  conversationId : String
  content : String
  role : String
  createdAt : String
deriving DecidableEq, Repr

/-- The conversations defaultdict. -/
abbrev Conversations := List (String × List StoredMessage)

/-- Dict membership test, session_id in conversations. -/
def convHas (cs : Conversations) (sid : String) : Bool :=
  cs.any (fun p => decide (p.1 = sid))

/-- Read of the message list of a session, empty when absent. -/
def convGet (cs : Conversations) (sid : String) : List StoredMessage :=
  match cs.find? (fun p => decide (p.1 = sid)) with
  | some p => p.2
  | none => []

/-- Python negative-start slice lst from minus n: the last n entries, or
the whole list when n is zero. -/
def pyLastSlice (l : List StoredMessage) (n : Nat) : List StoredMessage :=
  if n = 0 then l else l.drop (l.length - n)

/-- Embedding of MemoryContextService.store_message: append the message
dict to the session list, creating the session entry when absent, as a
defaultdict does. -/
def store_message (cs : Conversations) (sid : String)
    (content role mid createdAt : String) : Conversations :=
  let msg : StoredMessage :=
    { id := mid, conversationId := sid, content := content, role := role
      createdAt := createdAt }
  if convHas cs sid then
    cs.map (fun p => if p.1 = sid then (p.1, p.2 ++ [msg]) else p)
  else cs ++ [(sid, [msg])]

/-- Embedding of MemoryContextService.get_conversation_context: the last
limit messages of the session, empty when the session is absent. -/
def get_conversation_context (cs : Conversations) (sid : String)
    (limit : Nat := 10) : List StoredMessage :=
  if convHas cs sid then
    let msgs := convGet cs sid
    if msgs.isEmpty then [] else pyLastSlice msgs limit
  else []

/-- Iterated store_message of content, role, id and time quadruples into
one session, oldest first. -/
def storeAll (cs : Conversations) (sid : String)
    (items : List (String × String × String × String)) : Conversations :=
  items.foldl
    (fun s it => store_message s sid it.1 it.2.1 it.2.2.1 it.2.2.2) cs

/-! ### The app1 chat endpoint (app1/endpoints/chat.py lines 196-368)

The intent classifier, the Supabase context store and the retrieval and
generation collaborators are environment oracles. The pydantic response
model LLMChatResponse declares exactly the fields query, answer,
relevant_passages and total_passages; extra constructor keywords such as
session_id are silently dropped by pydantic, so the embedded structure
carries only the declared fields, and serialization lists exactly
those. -/

/-- A search result as the app1 models declare it; the metadata dict is
dropped, no claim reads it. -/
structure SearchResult where
  id : String
  score : ℚ
  text : String
deriving DecidableEq, Repr

/-- The pydantic request model LLMChatMessage. -/
structure LLMChatMessage where
  query : String
  top_k : Nat
  session_id : Option String
deriving DecidableEq, Repr

/-- The pydantic response model LLMChatResponse, with exactly its
declared fields. -/
structure LLMChatResponse where
  query : String
  answer : String
  relevant_passages : List SearchResult
  total_passages : Nat
deriving DecidableEq, Repr

/-- A serialized field value of the response model. -/
inductive PyField where
  | str (s : String)
  | nat (n : Nat)
  | passages (l : List SearchResult)
deriving DecidableEq, Repr

/-- Serialization of LLMChatResponse: the association list of its
declared fields, which is all pydantic emits. -/
def serializeResponse (r : LLMChatResponse) : List (String × PyField) :=
  [("query", .str r.query), ("answer", .str r.answer),
   ("relevant_passages", .passages r.relevant_passages),
   ("total_passages", .nat r.total_passages)]

/-- A conversation history message as returned by the context service. -/
structure HistMsg where
  role : String
  content : String
deriving DecidableEq, Repr

/-- The external collaborators of the app1 chat endpoint. -/
structure Env1 where
  classify : String → String
  history : String → Nat → List HistMsg
  gensid : String
  embed : String → List ℚ
  search : List ℚ → Nat → List SearchResult
  generate : String → List SearchResult → List HistMsg → String

/-- Outcome of the app1 chat endpoint: a response or a raised
HTTPException, with the collaborator call log. -/
structure ChatOutcome where
  result : Except (Nat × String) LLMChatResponse
  log : CallLog

/-- The first-turn greeting answer string of the source. -/
def greetingFirst : String :=
  "Jai Srimannarayana! Welcome! I\x27m excited to help you explore the profound teachings of Bhagavad Gita. What would you like to learn about today?"

/-- The returning-turn greeting answer string of the source. -/
def greetingAgain : String :=
  "Jai Srimannarayana! Great to see you again! How can I help you continue your journey through the Gita today?"

/-- The chitchat answer string of the source. -/
def chitchatAnswer : String :=
  "As a specialized assistant for the Bhagavad Gita, my purpose is to provide philosophical guidance and textual context. I\x27m here to help you explore the profound wisdom of the Gita! What subject would you like to learn about today?"

/-- Python falsy-or on the optional session id: a missing or empty id is
replaced by the generated one. -/
def sessionOr (o : Option String) (generated : String) : String :=
  match o with
  | none => generated
  | some s => if s = "" then generated else s

/-- Embedding of the chat_with_llm endpoint. The GREETING and CHITCHAT
intents short-circuit to canned responses with no passages and no
retrieval or generation calls. In the GREETING branch the source passes
the async get_conversation_context to asyncio.to_thread, which runs the
call in a worker thread and hands back the coroutine object that call
returns, never awaited; a coroutine object is truthy, so is_first_turn,
computed as its negation, is constantly false, the first-turn greeting
is dead code, and the returning-user greeting is always answered. The
history oracle call is kept to model the dispatched fetch whose value
never influences the outcome. The full RAG branch reads the attributes
user_id and user_name of the request model, which the pydantic model
does not declare, so it raises an attribute error that the catch-all
converts to a status 500 HTTPException before any collaborator call. -/
def chat_with_llm (env : Env1) (data : LLMChatMessage) : ChatOutcome :=
  let intent := env.classify data.query
  if intent = "GREETING" then
    let session_id := sessionOr data.session_id env.gensid
    let _conversation_history := env.history session_id 1
    let is_first_turn := false
    let greeting_answer :=
      if is_first_turn then greetingFirst else greetingAgain
    { result := .ok
        { query := data.query, answer := greeting_answer
          relevant_passages := [], total_passages := 0 }
      log := ⟨0, 0, 0⟩ }
  else if intent = "CHITCHAT" then
    { result := .ok
        { query := data.query, answer := chitchatAnswer
          relevant_passages := [], total_passages := 0 }
      log := ⟨0, 0, 0⟩ }
  else
    { result := .error (500,
        "Contextual LLM chat failed: \x27LLMChatMessage\x27 object has no attribute \x27user_id\x27")
      log := ⟨0, 0, 0⟩ }

/-! ## Theorems -/

/-! ### Reranker lemmas and the C5 claim -/

/-- C5: rerank_chunks assigns every chunk the rerank score
0.6 similarity + 0.3 keyword overlap + 0.1 length bonus and
rerank_chunks_fast assigns 0.7 similarity + 0.3 keyword overlap, with
keyword overlap the query-word fraction over case-folded whitespace
tokens (0 for a wordless query) and length bonus the text length over
1000 capped at 0.2; both return a permutation of the scored input,
sorted descending by rerank score, with tied chunks left in the original
input order. -/
theorem rerank_chunks_spec (query : String) (chunks : List Chunk) :
    ((rerank_chunks query chunks).Perm
        (chunks.map (calculate_relevance_score query))
      ∧ (∀ r ∈ rerank_chunks query chunks,
          r.rerank_score = (6 / 10) * r.score
            + (3 / 10) * keyword_overlap query r.text
            + (1 / 10) * length_bonus r.text)
      ∧ (rerank_chunks query chunks).Pairwise
          (fun a b => b.rerank_score ≤ a.rerank_score)
      ∧ (∀ a b,
          [a, b].Sublist (chunks.map (calculate_relevance_score query)) →
          a.rerank_score = b.rerank_score →
          [a, b].Sublist (rerank_chunks query chunks)))
    ∧ ((rerank_chunks_fast query chunks).Perm
        (chunks.map (calculate_relevance_score_fast query))
      ∧ (∀ r ∈ rerank_chunks_fast query chunks,
          r.rerank_score = (7 / 10) * r.score
            + (3 / 10) * keyword_overlap query r.text)
      ∧ (rerank_chunks_fast query chunks).Pairwise
          (fun a b => b.rerank_score ≤ a.rerank_score)
      ∧ (∀ a b,
          [a, b].Sublist (chunks.map (calculate_relevance_score_fast query)) →
          a.rerank_score = b.rerank_score →
          [a, b].Sublist (rerank_chunks_fast query chunks))) := by
  constructor
  · refine ⟨List.perm_insertionSort _ _, ?_, ?_, ?_⟩
    · intro r hr
      rw [rerank_chunks, List.mem_insertionSort] at hr
      obtain ⟨c, _, rfl⟩ := List.mem_map.mp hr
      simp only [calculate_relevance_score]
      ring
    · exact List.sorted_insertionSort rerankLE
        (chunks.map (calculate_relevance_score query))
    · intro a b hsub heq
      exact List.pair_sublist_insertionSort (le_of_eq heq.symm) hsub
  · refine ⟨List.perm_insertionSort _ _, ?_, ?_, ?_⟩
    · intro r hr
      rw [rerank_chunks_fast, List.mem_insertionSort] at hr
      obtain ⟨c, _, rfl⟩ := List.mem_map.mp hr
      simp only [calculate_relevance_score_fast]
      ring
    · exact List.sorted_insertionSort rerankLE
        (chunks.map (calculate_relevance_score_fast query))
    · intro a b hsub heq
      exact List.pair_sublist_insertionSort (le_of_eq heq.symm) hsub

/-- Two equal-score chunks used to exercise the tie-breaking clause:
identical text and score under distinct chunk ids, a duplicate-content
tie. -/
def tieChunkA : Chunk := { text := "alpha", chunk_id := "a", score := 1 / 2 }

/-- Second tied chunk, listed after the first. -/
def tieChunkB : Chunk := { text := "alpha", chunk_id := "b", score := 1 / 2 }

/-- C5 witness: at a concrete query and a concrete two-chunk tie the
sublist and tie hypotheses hold and the tied pair keeps its input order
in the sorted output. -/
theorem rerank_chunks_spec_witness :
    ([calculate_relevance_score "q" tieChunkA,
        calculate_relevance_score "q" tieChunkB].Sublist
      ([tieChunkA, tieChunkB].map (calculate_relevance_score "q"))
      ∧ (calculate_relevance_score "q" tieChunkA).rerank_score
          = (calculate_relevance_score "q" tieChunkB).rerank_score)
    ∧ [calculate_relevance_score "q" tieChunkA,
        calculate_relevance_score "q" tieChunkB].Sublist
        (rerank_chunks "q" [tieChunkA, tieChunkB]) := by
  refine ⟨⟨?_, ?_⟩, ?_⟩
  · exact List.Sublist.refl _
  · rfl
  · exact (rerank_chunks_spec "q" [tieChunkA, tieChunkB]).1.2.2.2
      (calculate_relevance_score "q" tieChunkA)
      (calculate_relevance_score "q" tieChunkB)
      (List.Sublist.refl _) rfl

/-! ### C4: candidate merging -/

/-- One result set containing the chunk id X twice, both above the
simple-intent threshold. -/
def dupMatches : List PineMatch :=
  [{ score := 81 / 100, text := "t1", chunk_id := "X" },
   { score := 6 / 10, text := "t2", chunk_id := "X" }]

/-- Environment whose vector search returns the duplicate result set. -/
def envDup : Env :=
  { validate := fun _ => { is_valid := true, message := "", available_chapters := [] }
    embed := fun _ => []
    search := fun _ => dupMatches
    generate := fun _ _ => "generated" }

unseal Rat.mul Rat.add Rat.sub Rat.inv in
/-- C4 counterexample: a chunk id occurring in two retained matches
survives twice in the candidate list, and twice among the sources of the
final response, so the merged candidate list does not contain each chunk
id at most once. -/
theorem all_matches_duplicate_chunk_counterexample :
    ((build_all_matches (5 / 10) dupMatches).map
        (fun c => c.chunk_id)).count "X" = 2
    ∧ ¬ (((build_all_matches (5 / 10) dupMatches).map
        (fun c => c.chunk_id)).count "X" ≤ 1)
    ∧ ((process_chat_query envDup [] 0 "test").result.toOption.map
        (fun r => r.sources.map (fun c => c.chunk_id))) = some ["X", "X"] := by
  refine ⟨by decide, by decide, by rfl⟩

/-- C4 amended: the pipeline issues a single nearest-neighbor search and
builds its candidate list as the score filter of that one result set, in
result order and with no deduplication by chunk id: every chunk id keeps
exactly as many occurrences as it has among the matches strictly above
the threshold, and every match strictly above the threshold is retained
as a candidate. -/
theorem all_matches_no_dedup_spec (min_score : ℚ)
    (results : List PineMatch) :
    (∀ cid, ((build_all_matches min_score results).map
        (fun c => c.chunk_id)).count cid
      = ((results.filter (fun m => decide (min_score < m.score))).map
          (fun m => m.chunk_id)).count cid)
    ∧ ∀ m ∈ results, min_score < m.score →
        ({ text := m.text, chunk_id := m.chunk_id, score := m.score } : Chunk)
          ∈ build_all_matches min_score results := by
  constructor
  · intro cid
    simp only [build_all_matches, List.map_map]
    rfl
  · intro m hm hs
    exact List.mem_map_of_mem _ (List.mem_filter.mpr ⟨hm, by simpa using hs⟩)

unseal Rat.mul Rat.add Rat.sub Rat.inv in
/-- C4 witness: the amended theorem applied at the duplicate result set
keeps both retained occurrences of the chunk id X. -/
theorem all_matches_no_dedup_spec_witness :
    ({ score := 6 / 10, text := "t2", chunk_id := "X" } : PineMatch) ∈ dupMatches
    ∧ (5 : ℚ) / 10 < 6 / 10
    ∧ ({ text := "t2", chunk_id := "X", score := 6 / 10 } : Chunk)
        ∈ build_all_matches (5 / 10) dupMatches := by
  refine ⟨by decide, by decide, ?_⟩
  exact (all_matches_no_dedup_spec (5 / 10) dupMatches).2
    { score := 6 / 10, text := "t2", chunk_id := "X" }
    (by decide) (by decide)

/-! ### C8: blank query handling -/

/-- Environment used for closed evaluations of the pipeline on paths that
never reach a collaborator. -/
def envW : Env :=
  { validate := fun _ => { is_valid := true, message := "", available_chapters := [] }
    embed := fun _ => []
    search := fun _ => []
    generate := fun _ _ => "generated" }

/-- C8 counterexample: a whitespace-only query makes process_chat_query
surface a raised HTTPException with status 500, a transport-level
failure, not a well-formed non-error response object. -/
theorem empty_query_http_error_counterexample :
    (process_chat_query envW [] 0 "   ").result
      = .error (500, emptyQueryDetail)
    ∧ (process_chat_query envW [] 0 "   ").log = ⟨0, 0, 0⟩ := by
  exact ⟨rfl, rfl⟩

/-- C8 amended: every blank or whitespace-only query is rejected before
any retrieval work, with zero collaborator calls and an unchanged cache,
but by raising an HTTPException (the inner status 400 raise is re-raised
as status 500 by the catch-all), that is, as a transport-level failure
rather than a non-error response object. -/
theorem empty_query_rejected_spec (env : Env) (st : CacheState) (now : ℚ)
    (query : String) (hq : pyStrip query = "") :
    process_chat_query env st now query
      = { result := .error (500, emptyQueryDetail), log := ⟨0, 0, 0⟩
          cache := st } := by
  simp [process_chat_query, hq]

/-- C8 witness: the amended theorem applied to a three-space query. -/
theorem empty_query_rejected_spec_witness :
    pyStrip "   " = ""
    ∧ process_chat_query envW [] 0 "   "
        = { result := .error (500, emptyQueryDetail), log := ⟨0, 0, 0⟩
            cache := [] } :=
  ⟨by decide, empty_query_rejected_spec envW [] 0 "   " (by decide)⟩

/-! ### C3: session turn bound -/

/-- The stored message a quadruple of content, role, id and time becomes
in a given session. -/
def msgOf (sid : String) (it : String × String × String × String) :
    StoredMessage :=
  { id := it.2.2.1, conversationId := sid, content := it.1, role := it.2.1
    createdAt := it.2.2.2 }

/-- Eleven message quadruples, distinct contents, one session. -/
def elevenItems : List (String × String × String × String) :=
  (List.range 11).map (fun i => (toString i, "user", "m", "t"))

/-- C3 counterexample: after eleven appends to one fresh session the
stored turn list holds eleven messages, so the stored list does exceed
the bound of ten; store_message never drops an old turn. -/
theorem store_message_unbounded_counterexample :
    (convGet (storeAll [] "s" elevenItems) "s").length = 11
    ∧ ¬ ((convGet (storeAll [] "s" elevenItems) "s").length ≤ 10) := by
  exact ⟨by decide, by decide⟩

lemma store_message_existing (sid : String) (l : List StoredMessage)
    (c r mid t : String) :
    store_message [(sid, l)] sid c r mid t
      = [(sid, l ++ [StoredMessage.mk mid sid c r t])] := by
  simp [store_message, convHas]

lemma storeAll_single_session (sid : String) :
    ∀ (items : List (String × String × String × String))
      (l : List StoredMessage),
      storeAll [(sid, l)] sid items = [(sid, l ++ items.map (msgOf sid))] := by
  intro items
  induction items with
  | nil => intro l; simp [storeAll]
  | cons it its ih =>
    intro l
    have hstep : store_message [(sid, l)] sid it.1 it.2.1 it.2.2.1 it.2.2.2
        = [(sid, l ++ [msgOf sid it])] := store_message_existing sid l _ _ _ _
    calc storeAll [(sid, l)] sid (it :: its)
        = storeAll (store_message [(sid, l)] sid it.1 it.2.1 it.2.2.1 it.2.2.2)
            sid its := rfl
      _ = storeAll [(sid, l ++ [msgOf sid it])] sid its := by rw [hstep]
      _ = [(sid, (l ++ [msgOf sid it]) ++ its.map (msgOf sid))] := ih _
      _ = [(sid, l ++ (it :: its).map (msgOf sid))] := by
          simp [List.append_assoc]

lemma storeAll_from_empty (sid : String)
    (items : List (String × String × String × String)) :
    storeAll [] sid items
      = if items.isEmpty then [] else [(sid, items.map (msgOf sid))] := by
  cases items with
  | nil => simp [storeAll]
  | cons it its =>
    have h0 : store_message [] sid it.1 it.2.1 it.2.2.1 it.2.2.2
        = [(sid, [msgOf sid it])] := by
      simp [store_message, convHas, msgOf]
    calc storeAll [] sid (it :: its)
        = storeAll (store_message [] sid it.1 it.2.1 it.2.2.1 it.2.2.2)
            sid its := rfl
      _ = storeAll [(sid, [msgOf sid it])] sid its := by rw [h0]
      _ = [(sid, [msgOf sid it] ++ its.map (msgOf sid))] :=
          storeAll_single_session sid its _
      _ = if (it :: its).isEmpty then []
          else [(sid, (it :: its).map (msgOf sid))] := by simp

/-- C3 amended: the stored turn list of a session grows without bound,
holding every appended message in insertion order, so after eleven
appends it holds eleven turns; the ten-turn window exists only at read
time: get_conversation_context with the default limit of ten returns
exactly the last ten stored turns, so after eleven appends the returned
context drops the oldest turn, keeps the newest, and preserves insertion
order. -/
theorem memory_context_window_spec (sid : String)
    (items : List (String × String × String × String)) :
    convGet (storeAll [] sid items) sid = items.map (msgOf sid)
    ∧ (items.length = 11 →
        (convGet (storeAll [] sid items) sid).length = 11
        ∧ get_conversation_context (storeAll [] sid items) sid 10
            = (items.map (msgOf sid)).drop 1
        ∧ (get_conversation_context (storeAll [] sid items) sid 10).length
            = 10) := by
  have hstate := storeAll_from_empty sid items
  constructor
  · rw [hstate]
    cases items with
    | nil => simp [convGet]
    | cons it its => simp [convGet]
  · intro hlen
    have hne : items.isEmpty = false := by
      cases items with
      | nil => simp at hlen
      | cons it its => simp
    rw [hstate, hne] at *
    simp only [Bool.false_eq_true, if_false]
    have hget : convGet [(sid, items.map (msgOf sid))] sid
        = items.map (msgOf sid) := by simp [convGet]
    have hmaplen : (items.map (msgOf sid)).length = 11 := by
      simpa using hlen
    refine ⟨by rw [hget, hmaplen], ?_, ?_⟩
    · have hmapne : (items.map (msgOf sid)).isEmpty = false := by
        cases items with
        | nil => simp at hlen
        | cons it its => simp
      simp only [get_conversation_context, convHas, List.any_cons,
        decide_eq_true_eq]
      rw [if_pos (by simp)]
      rw [hget] at *
      rw [if_neg (by simp [hmapne])]
      simp [pyLastSlice, hmaplen]
    · simp only [get_conversation_context, convHas, List.any_cons]
      rw [if_pos (by simp)]
      rw [hget] at *
      have hmapne : (items.map (msgOf sid)).isEmpty = false := by
        cases items with
        | nil => simp at hlen
        | cons it its => simp
      rw [if_neg (by simp [hmapne])]
      simp [pyLastSlice, hmaplen]

/-- C3 witness: the amended theorem applied to the eleven concrete
appends. -/
theorem memory_context_window_spec_witness :
    elevenItems.length = 11
    ∧ (get_conversation_context (storeAll [] "s" elevenItems) "s" 10).length
        = 10 :=
  ⟨by decide,
    ((memory_context_window_spec "s" elevenItems).2 (by decide)).2.2⟩

/-! ### C9: greeting short-circuit -/

/-- Environment for the app1 endpoint whose classifier reports a
greeting and whose history is empty. -/
def envG : Env1 :=
  { classify := fun _ => "GREETING"
    history := fun _ _ => []
    gensid := "session_1"
    embed := fun _ => []
    search := fun _ _ => []
    generate := fun _ _ _ => "" }

/-- The request of the greeting scenario. -/
def dataG : LLMChatMessage :=
  { query := "Hello", top_k := 5, session_id := none }

/-- C9 counterexample: at the greeting Hello the endpoint returns the
returning-user greeting (the un-awaited coroutine bound to the history
makes the first-turn test constantly false), and that response
serializes without any confidence key at all, so its confidence cannot
equal a fixed greeting-sentinel value; the response model declares no
confidence field. -/
theorem greeting_no_confidence_counterexample :
    (chat_with_llm envG dataG).result
      = .ok { query := "Hello", answer := greetingAgain
              relevant_passages := [], total_passages := 0 }
    ∧ (serializeResponse
        { query := "Hello", answer := greetingAgain
          relevant_passages := [], total_passages := 0 }).lookup "confidence"
      = none := by
  exact ⟨rfl, rfl⟩

/-- C9 amended: a query classified as a greeting short-circuits the app1
chat endpoint to a canned greeting response whose relevant_passages list
is empty and whose total_passages is zero, with zero calls to the
embedding, vector-search and generation collaborators; the answer is
always the returning-user greeting, because the history value is an
un-awaited coroutine and therefore truthy, and the response object
carries no confidence field, so no sentinel confidence value is set. -/
theorem greeting_short_circuit_spec (env : Env1) (data : LLMChatMessage)
    (hg : env.classify data.query = "GREETING") :
    (∃ r, (chat_with_llm env data).result = .ok r
      ∧ r.relevant_passages = []
      ∧ r.total_passages = 0
      ∧ (serializeResponse r).lookup "confidence" = none
      ∧ r.answer = greetingAgain)
    ∧ (chat_with_llm env data).log = ⟨0, 0, 0⟩ := by
  unfold chat_with_llm
  rw [hg]
  simp only [if_pos rfl]
  exact ⟨⟨_, rfl, rfl, rfl, rfl, rfl⟩, rfl⟩

/-- C9 witness: the amended theorem applied to the concrete greeting
request Hello. -/
theorem greeting_short_circuit_spec_witness :
    envG.classify dataG.query = "GREETING"
    ∧ (chat_with_llm envG dataG).log = ⟨0, 0, 0⟩ :=
  ⟨rfl, (greeting_short_circuit_spec envG dataG rfl).2⟩

/-! ### Cache-path lemmas and the C1, C6, C7, C10 claims -/

lemma process_cache_hit (env : Env) (st : CacheState) (now : ℚ)
    (query : String) (e : CacheEntry) (hq : pyStrip query ≠ "")
    (he : cacheLookup st (get_cache_key query) = some e)
    (hts : now - e.timestamp < CACHE_TTL) :
    process_chat_query env st now query
      = { result := .ok e.response, log := ⟨0, 0, 0⟩, cache := st } := by
  unfold process_chat_query get_cached_response
  rw [if_neg hq]
  simp [he, hts]

lemma process_full_path_counts (env : Env) (st : CacheState) (now : ℚ)
    (query : String) (hq : pyStrip query ≠ "")
    (hmiss : (get_cached_response st now query).1 = none)
    (hv : (env.validate query).is_valid = true) :
    ∃ g, (process_chat_query env st now query).log = ⟨1, 1, g⟩ := by
  unfold process_chat_query
  rw [if_neg hq]
  simp only [hmiss, hv]
  rw [if_neg (by simp : ¬(true = false))]
  split
  · exact ⟨0, rfl⟩
  · split
    · exact ⟨0, rfl⟩
    · split
      · exact ⟨0, rfl⟩
      · exact ⟨1, rfl⟩

/-- C1: after a cache miss and a passed validation, the gate threshold is
0.3 when the intent analysis sets needs_comprehensive_context and 0.5
otherwise; whenever the retrieval result set is empty, or its top score
is below that threshold, the pipeline answers with the canned
no-information response whose sources list is empty and whose confidence
is the top raw score (0 when there were no matches), without calling the
generator. -/
theorem process_chat_query_threshold_gate (env : Env) (st : CacheState)
    (now : ℚ) (query : String) (hq : pyStrip query ≠ "")
    (hmiss : (get_cached_response st now query).1 = none)
    (hv : (env.validate query).is_valid = true) :
    (min_score_of (analyze_query_intent query)
      = if (analyze_query_intent query).needs_comprehensive_context
        then 3 / 10 else 5 / 10)
    ∧ (env.search (env.embed (combined_query query)) = [] →
        (process_chat_query env st now query).result
            = .ok (noInfoResponse 0)
        ∧ (noInfoResponse 0).sources = []
        ∧ (noInfoResponse 0).confidence = 0
        ∧ (process_chat_query env st now query).log.generates = 0)
    ∧ (∀ m0 ms, env.search (env.embed (combined_query query)) = m0 :: ms →
        m0.score < min_score_of (analyze_query_intent query) →
        (process_chat_query env st now query).result
            = .ok (noInfoResponse m0.score)
        ∧ (noInfoResponse m0.score).sources = []
        ∧ (noInfoResponse m0.score).confidence = m0.score
        ∧ (process_chat_query env st now query).log.generates = 0) := by
  refine ⟨rfl, ?_, ?_⟩
  · intro hempty
    unfold process_chat_query
    rw [if_neg hq]
    simp only [hmiss, hv, hempty]
    exact ⟨rfl, rfl, rfl, rfl⟩
  · intro m0 ms hcons hlow
    unfold process_chat_query
    rw [if_neg hq]
    simp only [hmiss, hv, hcons]
    rw [if_pos hlow]
    exact ⟨rfl, rfl, rfl, rfl⟩

/-- Cached response used by the concrete cache scenarios. -/
def respW : Response :=
  { answer := "cached answer", confidence := 1 / 2, sources := []
    total_sources_found := none, context_quality := none
    response_type := none, available_chapters := none }

/-- A one-entry cache holding respW for the key hello at time zero. -/
def stW : CacheState := [("hello", { response := respW, timestamp := 0 })]

unseal Rat.mul Rat.add Rat.sub Rat.inv in
/-- C1 witness: the gate theorem applied to the query what is dharma,
whose intent is not comprehensive, on an empty retrieval result. -/
theorem process_chat_query_threshold_gate_witness :
    pyStrip "what is dharma" ≠ ""
    ∧ (get_cached_response [] 0 "what is dharma").1 = none
    ∧ (envW.validate "what is dharma").is_valid = true
    ∧ min_score_of (analyze_query_intent "what is dharma") = 5 / 10
    ∧ (process_chat_query envW [] 0 "what is dharma").result
        = .ok (noInfoResponse 0)
    ∧ (process_chat_query envW [] 0 "what is dharma").log.generates = 0 := by
  refine ⟨by decide, by rfl, by rfl, by decide, ?_⟩
  have h := (process_chat_query_threshold_gate envW [] 0 "what is dharma"
    (by decide) (by rfl) (by rfl)).2.1 (by rfl)
  exact ⟨h.1, h.2.2.2⟩

/-- C6: while a cached entry for the query is fresh, the pipeline
returns exactly the cached response object, leaves the cache unchanged,
and performs zero calls to the embed, vector-search and generate
collaborators. -/
theorem cache_hit_idempotent (env : Env) (st : CacheState) (now : ℚ)
    (query : String) (e : CacheEntry) (hq : pyStrip query ≠ "")
    (he : cacheLookup st (get_cache_key query) = some e)
    (hts : now - e.timestamp < CACHE_TTL) :
    (process_chat_query env st now query).result = .ok e.response
    ∧ (process_chat_query env st now query).log = ⟨0, 0, 0⟩
    ∧ (process_chat_query env st now query).cache = st := by
  rw [process_cache_hit env st now query e hq he hts]
  exact ⟨rfl, rfl, rfl⟩

unseal Rat.mul Rat.add Rat.sub Rat.inv in
/-- C6 witness: the idempotence theorem applied to a concrete fresh
cached entry for the query hello. -/
theorem cache_hit_idempotent_witness :
    pyStrip "hello" ≠ ""
    ∧ cacheLookup stW (get_cache_key "hello")
        = some { response := respW, timestamp := 0 }
    ∧ (10 : ℚ) - 0 < CACHE_TTL
    ∧ (process_chat_query envW stW 10 "hello").result = .ok respW
    ∧ (process_chat_query envW stW 10 "hello").log = ⟨0, 0, 0⟩ := by
  have h := cache_hit_idempotent envW stW 10 "hello"
    { response := respW, timestamp := 0 } (by decide) (by rfl) (by decide)
  exact ⟨by decide, by rfl, by decide, h.1, h.2.1⟩

/-- C7: a cached entry is returned only while its age is below the TTL;
at or past the TTL the read returns nothing and purges the entry, and
the next pipeline run for the query performs a full run with one embed
and one search call. -/
theorem cache_ttl_expiry (env : Env) (st : CacheState) (now : ℚ)
    (query : String) (e : CacheEntry) (hq : pyStrip query ≠ "")
    (he : cacheLookup st (get_cache_key query) = some e)
    (hts : CACHE_TTL ≤ now - e.timestamp)
    (hv : (env.validate query).is_valid = true) :
    get_cached_response st now query
      = (none, eraseKey st (get_cache_key query))
    ∧ (process_chat_query env st now query).log.embeds = 1
    ∧ (process_chat_query env st now query).log.searches = 1 := by
  have hmiss : get_cached_response st now query
      = (none, eraseKey st (get_cache_key query)) := by
    unfold get_cached_response
    simp only [he]
    rw [if_neg (not_lt.mpr hts)]
  obtain ⟨g, hg⟩ :=
    process_full_path_counts env st now query hq (by rw [hmiss]) hv
  exact ⟨hmiss, by rw [hg], by rw [hg]⟩

unseal Rat.mul Rat.add Rat.sub Rat.inv in
/-- C7 witness: the expiry theorem applied to the hello entry of age 400
against the 300 second TTL. -/
theorem cache_ttl_expiry_witness :
    pyStrip "hello" ≠ ""
    ∧ cacheLookup stW (get_cache_key "hello")
        = some { response := respW, timestamp := 0 }
    ∧ CACHE_TTL ≤ (400 : ℚ) - 0
    ∧ get_cached_response stW 400 "hello"
        = (none, eraseKey stW (get_cache_key "hello"))
    ∧ (process_chat_query envW stW 400 "hello").log.embeds = 1 := by
  have h := cache_ttl_expiry envW stW 400 "hello"
    { response := respW, timestamp := 0 } (by decide) (by rfl) (by decide)
    (by rfl)
  exact ⟨by decide, by rfl, by decide, h.1, h.2.1⟩

/-- C10: queries with equal normalized forms share one cache key, so a
fresh response cached for one query is returned verbatim for the other,
although the raw query strings differ. -/
theorem normalized_cache_key_equivalence (env : Env) (st : CacheState)
    (now : ℚ) (q1 q2 : String) (e : CacheEntry)
    (hnorm : normalize_query q1 = normalize_query q2)
    (hq2 : pyStrip q2 ≠ "")
    (he : cacheLookup st (get_cache_key q1) = some e)
    (hts : now - e.timestamp < CACHE_TTL) :
    get_cache_key q1 = get_cache_key q2
    ∧ (process_chat_query env st now q2).result = .ok e.response := by
  have hkey : get_cache_key q1 = get_cache_key q2 := hnorm
  refine ⟨hkey, ?_⟩
  rw [process_cache_hit env st now q2 e hq2 (hkey ▸ he) hts]

unseal Rat.mul Rat.add Rat.sub Rat.inv in
/-- C10 witness: the key equivalence theorem applied to the pair Hello
and a padded lower-case hello, the second served from the cache entry
written for the first. -/
theorem normalized_cache_key_equivalence_witness :
    normalize_query "Hello" = normalize_query "  hello "
    ∧ pyStrip "  hello " ≠ ""
    ∧ cacheLookup stW (get_cache_key "Hello")
        = some { response := respW, timestamp := 0 }
    ∧ (10 : ℚ) - 0 < CACHE_TTL
    ∧ (process_chat_query envW stW 10 "  hello ").result = .ok respW := by
  have h := normalized_cache_key_equivalence envW stW 10 "Hello" "  hello "
    { response := respW, timestamp := 0 } (by decide) (by decide) (by rfl)
    (by decide)
  exact ⟨by decide, by decide, by rfl, by decide, h.2⟩

/-! ### Cache-eviction lemmas and the C2 claim -/

/-- The invariant every Python dict state satisfies: keys are unique. -/
def distinctKeys (st : CacheState) : Prop :=
  (st.map Prod.fst).Nodup

lemma any_key_eq_false {st : CacheState} {k : String}
    (h : k ∉ st.map Prod.fst) :
    st.any (fun p => decide (p.1 = k)) = false := by
  simp only [List.any_eq_false, decide_eq_true_eq]
  intro p hp hpk
  exact h (hpk ▸ List.mem_map_of_mem Prod.fst hp)

lemma insertOrReplace_fresh {st : CacheState} {k : String} (e : CacheEntry)
    (h : k ∉ st.map Prod.fst) :
    insertOrReplace st k e = st ++ [(k, e)] := by
  unfold insertOrReplace
  rw [any_key_eq_false h]
  simp

lemma insertOrReplace_distinct (st : CacheState) (k : String)
    (e : CacheEntry) (hd : distinctKeys st) :
    distinctKeys (insertOrReplace st k e) := by
  unfold insertOrReplace
  by_cases hmem : st.any (fun p => decide (p.1 = k)) = true
  · rw [if_pos hmem]
    unfold distinctKeys at *
    rw [List.map_map]
    have hfun : (Prod.fst ∘ fun p : String × CacheEntry =>
        if p.1 = k then (k, e) else p) = Prod.fst := by
      funext p
      by_cases h : p.1 = k <;> simp [h]
    rw [hfun]
    exact hd
  · rw [if_neg hmem]
    unfold distinctKeys at *
    rw [List.map_append]
    rw [List.nodup_append]
    refine ⟨hd, List.nodup_singleton _, ?_⟩
    intro a ha hb
    simp only [List.map_cons, List.map_nil, List.mem_singleton] at hb
    subst hb
    exact hmem (by
      simp only [List.any_eq_true, decide_eq_true_eq]
      obtain ⟨p, hp, hpk⟩ := List.mem_map.mp ha
      exact ⟨p, hp, hpk⟩)

lemma minTsKeyGo_min : ∀ (rest : CacheState) (best : String) (bt : ℚ),
    (minTsKeyGo best bt rest = best ∧ ∀ p ∈ rest, bt ≤ p.2.timestamp)
    ∨ (∃ e, (minTsKeyGo best bt rest, e) ∈ rest ∧ e.timestamp ≤ bt
        ∧ ∀ p ∈ rest, e.timestamp ≤ p.2.timestamp) := by
  intro rest
  induction rest with
  | nil => intro best bt; left; exact ⟨rfl, by simp⟩
  | cons q rest' ih =>
    intro best bt
    obtain ⟨k', e'⟩ := q
    by_cases hlt : e'.timestamp < bt
    · rw [show minTsKeyGo best bt ((k', e') :: rest')
          = minTsKeyGo k' e'.timestamp rest' from by
        simp [minTsKeyGo, hlt]]
      rcases ih k' e'.timestamp with ⟨hgo, hall⟩ | ⟨e, hmem, hle, hall⟩
      · right
        refine ⟨e', by rw [hgo]; exact List.mem_cons_self _ _,
          le_of_lt hlt, ?_⟩
        intro p hp
        rcases List.mem_cons.mp hp with rfl | hp'
        · exact le_refl _
        · exact hall p hp'
      · right
        refine ⟨e, List.mem_cons_of_mem _ hmem,
          le_trans hle (le_of_lt hlt), ?_⟩
        intro p hp
        rcases List.mem_cons.mp hp with rfl | hp'
        · exact hle
        · exact hall p hp'
    · rw [show minTsKeyGo best bt ((k', e') :: rest')
          = minTsKeyGo best bt rest' from by
        simp [minTsKeyGo, hlt]]
      rcases ih best bt with ⟨hgo, hall⟩ | ⟨e, hmem, hle, hall⟩
      · left
        refine ⟨hgo, ?_⟩
        intro p hp
        rcases List.mem_cons.mp hp with rfl | hp'
        · exact not_lt.mp hlt
        · exact hall p hp'
      · right
        refine ⟨e, List.mem_cons_of_mem _ hmem, hle, ?_⟩
        intro p hp
        rcases List.mem_cons.mp hp with rfl | hp'
        · exact le_trans hle (not_lt.mp hlt)
        · exact hall p hp'

lemma minTsKey_min (st : CacheState) (hne : st ≠ []) :
    ∃ k e, minTsKey st = some k ∧ (k, e) ∈ st
      ∧ ∀ p ∈ st, e.timestamp ≤ p.2.timestamp := by
  cases st with
  | nil => exact absurd rfl hne
  | cons q rest =>
    obtain ⟨k0, e0⟩ := q
    rcases minTsKeyGo_min rest k0 e0.timestamp with
      ⟨hgo, hall⟩ | ⟨e, hmem, hle, hall⟩
    · refine ⟨minTsKeyGo k0 e0.timestamp rest, e0, rfl,
        by rw [hgo]; exact List.mem_cons_self _ _, ?_⟩
      intro p hp
      rcases List.mem_cons.mp hp with rfl | hp'
      · exact le_refl _
      · exact hall p hp'
    · refine ⟨minTsKeyGo k0 e0.timestamp rest, e, rfl,
        List.mem_cons_of_mem _ hmem, ?_⟩
      intro p hp
      rcases List.mem_cons.mp hp with rfl | hp'
      · exact hle
      · exact hall p hp'

lemma minTsKeyGo_of_not_lt : ∀ (rest : CacheState) (best : String) (bt : ℚ),
    (∀ p ∈ rest, ¬ (p.2.timestamp < bt)) → minTsKeyGo best bt rest = best := by
  intro rest
  induction rest with
  | nil => intro best bt _; rfl
  | cons q rest' ih =>
    intro best bt hall
    obtain ⟨k', e'⟩ := q
    have h1 : ¬ (e'.timestamp < bt) := hall (k', e') (List.mem_cons_self _ _)
    rw [show minTsKeyGo best bt ((k', e') :: rest')
        = minTsKeyGo best bt rest' from by simp [minTsKeyGo, h1]]
    exact ih best bt (fun p hp => hall p (List.mem_cons_of_mem _ hp))

lemma eraseKey_not_mem (st : CacheState) (k : String)
    (h : k ∉ st.map Prod.fst) : eraseKey st k = st := by
  unfold eraseKey
  apply List.filter_eq_self.mpr
  intro p hp
  simp only [ne_eq, decide_eq_true_eq]
  intro hpk
  exact h (hpk ▸ List.mem_map_of_mem Prod.fst hp)

lemma eraseKey_length (st : CacheState) (k : String) (e : CacheEntry)
    (hmem : (k, e) ∈ st) (hd : distinctKeys st) :
    (eraseKey st k).length = st.length - 1 := by
  induction st with
  | nil => cases hmem
  | cons p rest ih =>
    have hd' : distinctKeys rest := by
      unfold distinctKeys at *
      exact (List.nodup_cons.mp hd).2
    have hp1 : p.1 ∉ rest.map Prod.fst := by
      unfold distinctKeys at hd
      exact (List.nodup_cons.mp hd).1
    rcases List.mem_cons.mp hmem with rfl | hmem'
    · have hhead : decide (((k, e) : String × CacheEntry).1 ≠ k) = false := by
        simp
      unfold eraseKey
      rw [List.filter_cons]
      rw [hhead]
      simp only [Bool.false_eq_true, if_false]
      rw [show List.filter (fun p => decide (p.1 ≠ k)) rest
          = eraseKey rest k from rfl]
      rw [eraseKey_not_mem rest k hp1]
      simp
    · have hkrest : k ∈ rest.map Prod.fst :=
        List.mem_map.mpr ⟨(k, e), hmem', rfl⟩
      have hpk : p.1 ≠ k := by
        intro hcontra
        exact hp1 (hcontra ▸ hkrest)
      have hrlen : rest.length ≥ 1 := by
        cases rest with
        | nil => cases hmem'
        | cons a b => simp
      unfold eraseKey
      rw [List.filter_cons]
      rw [show decide (p.1 ≠ k) = true from by simp [hpk]]
      simp only [if_true, List.length_cons]
      rw [show List.filter (fun p => decide (p.1 ≠ k)) rest
          = eraseKey rest k from rfl]
      rw [ih hmem' hd']
      omega

lemma cacheLookup_eraseKey_self (st : CacheState) (k : String) :
    cacheLookup (eraseKey st k) k = none := by
  have hfind : List.find? (fun p => decide (p.1 = k))
      (List.filter (fun p => decide (p.1 ≠ k)) st) = none := by
    apply List.find?_eq_none.mpr
    intro p hp
    have hmem := List.of_mem_filter hp
    simp only [ne_eq, decide_eq_true_eq] at hmem
    simp only [decide_eq_true_eq]
    exact hmem
  simp [cacheLookup, eraseKey, hfind]

/-- Cache key generated by one insertion item. -/
def keyOf (it : ℚ × String × Response) : String :=
  get_cache_key it.2.1

/-- Cache entry generated by one insertion item. -/
def entryOf (it : ℚ × String × Response) : String × CacheEntry :=
  (keyOf it, { response := it.2.2, timestamp := it.1 })

lemma map_fst_map_entryOf (l : List (ℚ × String × Response)) :
    (l.map entryOf).map Prod.fst = l.map keyOf := by
  rw [List.map_map]
  rfl

lemma cacheLookup_none_of_not_mem (l : CacheState) (k : String)
    (hk : k ∉ l.map Prod.fst) : cacheLookup l k = none := by
  have hfind : List.find? (fun p => decide (p.1 = k)) l = none := by
    apply List.find?_eq_none.mpr
    intro p hp
    simp only [decide_eq_true_eq]
    intro hpk
    exact hk (hpk ▸ List.mem_map_of_mem Prod.fst hp)
  simp [cacheLookup, hfind]

lemma putSeq_fresh : ∀ (items : List (ℚ × String × Response))
    (st : CacheState),
    (st.map Prod.fst ++ items.map keyOf).Nodup →
    st.length + items.length ≤ 200 →
    putSeq st items = st ++ items.map entryOf := by
  intro items
  induction items with
  | nil => intro st _ _; simp [putSeq]
  | cons it its ih =>
    intro st hnd hlen
    have hk : keyOf it ∉ st.map Prod.fst := by
      rcases List.nodup_append.mp hnd with ⟨_, _, hdisj⟩
      intro hmem
      exact hdisj hmem (by simp)
    have hins : insertOrReplace st (get_cache_key it.2.1)
        { response := it.2.2, timestamp := it.1 } = st ++ [entryOf it] :=
      insertOrReplace_fresh _ hk
    have hnoev : ¬ (200 < (st ++ [entryOf it]).length) := by
      simp only [List.length_cons] at hlen
      simp only [List.length_append, List.length_singleton]
      omega
    have hstep : cache_response st it.1 it.2.1 it.2.2 = st ++ [entryOf it] := by
      unfold cache_response
      simp only [hins]
      rw [if_neg hnoev]
    have hnd' : ((st ++ [entryOf it]).map Prod.fst ++ its.map keyOf).Nodup := by
      have h1 : (st ++ [entryOf it]).map Prod.fst
          = st.map Prod.fst ++ [keyOf it] := by
        simp [entryOf]
      rw [h1, List.append_assoc]
      simpa using hnd
    have hlen' : (st ++ [entryOf it]).length + its.length ≤ 200 := by
      simp only [List.length_append, List.length_singleton]
      simp only [List.length_cons] at hlen
      omega
    calc putSeq st (it :: its)
        = putSeq (cache_response st it.1 it.2.1 it.2.2) its := rfl
      _ = putSeq (st ++ [entryOf it]) its := by rw [hstep]
      _ = (st ++ [entryOf it]) ++ its.map entryOf := ih _ hnd' hlen'
      _ = st ++ (it :: its).map entryOf := by simp

/-- C2: the size-bounded cache write. First, the single-step law: when
the insert or overwrite leaves the dict above 200 entries, cache_response
deletes exactly one key, a key holding the globally smallest timestamp,
leaving one entry fewer and no entry under the evicted key. Second, the
scenario law: writing 201 distinct-key responses with strictly
increasing timestamps into an empty cache leaves exactly 200 entries,
namely those of the 200 later writes in insertion order, and the key of
the first write, the one holding the smallest timestamp, is the absent
one. -/
theorem cache_response_eviction_spec :
    (∀ (st : CacheState) (now : ℚ) (query : String) (resp : Response),
      distinctKeys st →
      200 < (insertOrReplace st (get_cache_key query)
        { response := resp, timestamp := now }).length →
      ∃ k e,
        minTsKey (insertOrReplace st (get_cache_key query)
          { response := resp, timestamp := now }) = some k
        ∧ (k, e) ∈ insertOrReplace st (get_cache_key query)
            { response := resp, timestamp := now }
        ∧ (∀ p ∈ insertOrReplace st (get_cache_key query)
            { response := resp, timestamp := now },
            e.timestamp ≤ p.2.timestamp)
        ∧ cache_response st now query resp
            = eraseKey (insertOrReplace st (get_cache_key query)
                { response := resp, timestamp := now }) k
        ∧ (cache_response st now query resp).length
            = (insertOrReplace st (get_cache_key query)
                { response := resp, timestamp := now }).length - 1
        ∧ cacheLookup (cache_response st now query resp) k = none)
    ∧ (∀ (items : List (ℚ × String × Response))
        (it0 : ℚ × String × Response)
        (rest : List (ℚ × String × Response)),
        items = it0 :: rest →
        items.length = 201 →
        (items.map keyOf).Nodup →
        (items.map (fun it => it.1)).Pairwise (· < ·) →
        putSeq [] items = rest.map entryOf
        ∧ (putSeq [] items).length = 200
        ∧ cacheLookup (putSeq [] items) (keyOf it0) = none) := by
  constructor
  · intro st now query resp hd hlen
    set st1 := insertOrReplace st (get_cache_key query)
      { response := resp, timestamp := now } with hst1
    have hne : st1 ≠ [] := by
      intro hcontra
      rw [hcontra] at hlen
      simp at hlen
    obtain ⟨k, e, hmin, hmem, hall⟩ := minTsKey_min st1 hne
    have hd1 : distinctKeys st1 := insertOrReplace_distinct st _ _ hd
    have hev : cache_response st now query resp = eraseKey st1 k := by
      unfold cache_response
      rw [← hst1]
      rw [if_pos hlen]
      rw [hmin]
    refine ⟨k, e, hmin, hmem, hall, hev, ?_, ?_⟩
    · rw [hev]
      exact eraseKey_length st1 k e hmem hd1
    · rw [hev]
      exact cacheLookup_eraseKey_self st1 k
  · intro items it0 rest hcons hlen hnd hts
    subst hcons
    have hrlen : rest.length = 200 := by
      simp only [List.length_cons] at hlen
      omega
    have hrne : rest ≠ [] := by
      intro hcontra
      rw [hcontra] at hrlen
      simp at hrlen
    set mid := rest.dropLast with hmid
    set lastIt := rest.getLast hrne with hlast
    have hsplit : mid ++ [lastIt] = rest := List.dropLast_append_getLast hrne
    have hmidlen : mid.length = 199 := by
      rw [hmid, List.length_dropLast, hrlen]
    have hkeys : (it0 :: rest).map keyOf
        = keyOf it0 :: (mid.map keyOf ++ [keyOf lastIt]) := by
      rw [List.map_cons]
      rw [← hsplit]
      simp
    have h0 : cache_response [] it0.1 it0.2.1 it0.2.2 = [entryOf it0] := by
      have h := putSeq_fresh [it0] [] (by simp) (by simp)
      simpa [putSeq] using h
    have hmidfresh : (([entryOf it0] : CacheState).map Prod.fst
        ++ mid.map keyOf).Nodup := by
      have hsub : (keyOf it0 :: mid.map keyOf).Sublist
          ((it0 :: rest).map keyOf) := by
        rw [hkeys]
        exact List.Sublist.cons₂ _ (List.sublist_append_left _ _)
      have h := hnd.sublist hsub
      simpa [entryOf] using h
    have hE : putSeq [entryOf it0] mid
        = entryOf it0 :: mid.map entryOf := by
      have h := putSeq_fresh mid [entryOf it0] hmidfresh
        (by simp [hmidlen])
      simpa using h
    set E : CacheState := entryOf it0 :: mid.map entryOf with hEdef
    have hElen : E.length = 200 := by
      simp [hEdef, hmidlen]
    have hEkeys : E.map Prod.fst = keyOf it0 :: mid.map keyOf := by
      rw [hEdef]
      simp only [List.map_cons]
      rw [map_fst_map_entryOf]
      rfl
    have hlastfresh : keyOf lastIt ∉ E.map Prod.fst := by
      rw [hEkeys]
      rw [hkeys] at hnd
      intro hmem
      rcases List.mem_cons.mp hmem with h1 | h2
      · have h3 := (List.nodup_cons.mp hnd).1
        exact h3 (by rw [← h1]; exact List.mem_append_right _ (by simp))
      · have hnd2 := (List.nodup_cons.mp hnd).2
        rcases List.nodup_append.mp hnd2 with ⟨_, _, hdisj⟩
        exact hdisj h2 (by simp)
    have hins : insertOrReplace E (get_cache_key lastIt.2.1)
        { response := lastIt.2.2, timestamp := lastIt.1 }
        = E ++ [entryOf lastIt] :=
      insertOrReplace_fresh _ hlastfresh
    have hover : 200 < (E ++ [entryOf lastIt]).length := by
      simp [hElen]
    have hts2 : ∀ it ∈ rest, it0.1 < it.1 := by
      have htsc : List.Pairwise (· < ·)
          (it0.1 :: rest.map (fun it => it.1)) := by
        simpa only [List.map_cons] using hts
      intro it hit
      exact (List.pairwise_cons.mp htsc).1 _ (List.mem_map_of_mem _ hit)
    have htail : ∀ p ∈ mid.map entryOf ++ [entryOf lastIt],
        ¬ (p.2.timestamp < (entryOf it0).2.timestamp) := by
      intro p hp
      have hpmem : p ∈ rest.map entryOf := by
        rw [← hsplit, List.map_append]
        simpa using hp
      obtain ⟨it, hit, rfl⟩ := List.mem_map.mp hpmem
      have hlt := hts2 it hit
      simp only [entryOf]
      exact not_lt.mpr (le_of_lt hlt)
    have hmin : minTsKey (E ++ [entryOf lastIt]) = some (keyOf it0) := by
      have hshape : E ++ [entryOf lastIt]
          = entryOf it0 :: (mid.map entryOf ++ [entryOf lastIt]) := by
        simp [hEdef]
      rw [hshape]
      have hminred : minTsKey (entryOf it0
            :: (mid.map entryOf ++ [entryOf lastIt]))
          = some (minTsKeyGo (entryOf it0).1 (entryOf it0).2.timestamp
              (mid.map entryOf ++ [entryOf lastIt])) := rfl
      rw [hminred, minTsKeyGo_of_not_lt _ _ _ htail]
      rfl
    have hfreshtail : keyOf it0 ∉ (mid.map entryOf
        ++ [entryOf lastIt]).map Prod.fst := by
      rw [hkeys] at hnd
      have h1 := (List.nodup_cons.mp hnd).1
      intro hmem
      apply h1
      have hmk : (mid.map entryOf ++ [entryOf lastIt]).map Prod.fst
          = mid.map keyOf ++ [keyOf lastIt] := by
        rw [List.map_append, map_fst_map_entryOf]
        rfl
      rw [hmk] at hmem
      exact hmem
    have herase : eraseKey (E ++ [entryOf lastIt]) (keyOf it0)
        = rest.map entryOf := by
      have hshape : E ++ [entryOf lastIt]
          = entryOf it0 :: (mid.map entryOf ++ [entryOf lastIt]) := by
        simp [hEdef]
      rw [hshape]
      unfold eraseKey
      rw [List.filter_cons]
      rw [show decide ((entryOf it0).1 ≠ keyOf it0) = false from by
        simp [entryOf]]
      simp only [Bool.false_eq_true, if_false]
      rw [show List.filter (fun p => decide (p.1 ≠ keyOf it0))
          (mid.map entryOf ++ [entryOf lastIt])
          = eraseKey (mid.map entryOf ++ [entryOf lastIt]) (keyOf it0)
          from rfl]
      rw [eraseKey_not_mem _ _ hfreshtail]
      rw [← hsplit, List.map_append]
      simp
    have hfinal : putSeq [] (it0 :: rest) = rest.map entryOf := by
      calc putSeq [] (it0 :: rest)
          = putSeq (cache_response [] it0.1 it0.2.1 it0.2.2) rest := rfl
        _ = putSeq [entryOf it0] rest := by rw [h0]
        _ = putSeq [entryOf it0] (mid ++ [lastIt]) := by rw [hsplit]
        _ = putSeq (putSeq [entryOf it0] mid) [lastIt] := by
            simp [putSeq, List.foldl_append]
        _ = putSeq E [lastIt] := by rw [hE]
        _ = cache_response E lastIt.1 lastIt.2.1 lastIt.2.2 := rfl
        _ = eraseKey (E ++ [entryOf lastIt]) (keyOf it0) := by
            unfold cache_response
            simp only [hins]
            rw [if_pos hover]
            rw [hmin]
        _ = rest.map entryOf := herase
    refine ⟨hfinal, ?_, ?_⟩
    · rw [hfinal]
      simp [hrlen]
    · rw [hfinal]
      apply cacheLookup_none_of_not_mem
      rw [map_fst_map_entryOf]
      rw [hkeys] at hnd
      have h1 := (List.nodup_cons.mp hnd).1
      intro hmem
      apply h1
      rw [← hsplit] at hmem
      simpa using hmem

/-- The 201 distinct witness queries of the cache-bound scenario; each
is already lower-case, unpadded and free of expansion triggers, so each
equals its own cache key. -/
def c2Queries : List String :=
  [
  "k0", "k1", "k2", "k3", "k4", "k5", "k6", "k7", "k8", "k9", "k10",
  "k11", "k12", "k13", "k14", "k15", "k16", "k17", "k18", "k19", "k20",
  "k21", "k22", "k23", "k24", "k25", "k26", "k27", "k28", "k29", "k30",
  "k31", "k32", "k33", "k34", "k35", "k36", "k37", "k38", "k39", "k40",
  "k41", "k42", "k43", "k44", "k45", "k46", "k47", "k48", "k49", "k50",
  "k51", "k52", "k53", "k54", "k55", "k56", "k57", "k58", "k59", "k60",
  "k61", "k62", "k63", "k64", "k65", "k66", "k67", "k68", "k69", "k70",
  "k71", "k72", "k73", "k74", "k75", "k76", "k77", "k78", "k79", "k80",
  "k81", "k82", "k83", "k84", "k85", "k86", "k87", "k88", "k89", "k90",
  "k91", "k92", "k93", "k94", "k95", "k96", "k97", "k98", "k99", "k100",
  "k101", "k102", "k103", "k104", "k105", "k106", "k107", "k108", "k109",
  "k110", "k111", "k112", "k113", "k114", "k115", "k116", "k117", "k118",
  "k119", "k120", "k121", "k122", "k123", "k124", "k125", "k126", "k127",
  "k128", "k129", "k130", "k131", "k132", "k133", "k134", "k135", "k136",
  "k137", "k138", "k139", "k140", "k141", "k142", "k143", "k144", "k145",
  "k146", "k147", "k148", "k149", "k150", "k151", "k152", "k153", "k154",
  "k155", "k156", "k157", "k158", "k159", "k160", "k161", "k162", "k163",
  "k164", "k165", "k166", "k167", "k168", "k169", "k170", "k171", "k172",
  "k173", "k174", "k175", "k176", "k177", "k178", "k179", "k180", "k181",
  "k182", "k183", "k184", "k185", "k186", "k187", "k188", "k189", "k190",
  "k191", "k192", "k193", "k194", "k195", "k196", "k197", "k198", "k199",
  "k200"
  ]

/-- The 201 timestamped witness writes: query number n at time n. -/
def c2Items : List (ℚ × String × Response) :=
  (c2Queries.enum).map (fun p => ((p.1 : ℚ), p.2, respW))

/-- The first witness write. -/
def c2It0 : ℚ × String × Response :=
  (((0 : ℕ) : ℚ), "k0", respW)

set_option maxRecDepth 100000

unseal Rat.mul Rat.add Rat.sub Rat.inv in
/-- C2 witness: the eviction theorem applied to the 201 concrete writes,
leaving exactly 200 entries. -/
theorem cache_response_eviction_spec_witness :
    c2Items.length = 201
    ∧ (c2Items.map keyOf).Nodup
    ∧ (putSeq [] c2Items).length = 200 := by
  have hkeys : c2Items.map keyOf = c2Queries := by decide
  have hnd : (c2Items.map keyOf).Nodup := by
    rw [hkeys]
    decide
  have hcons : c2Items = c2It0 :: c2Items.tail := by rfl
  have hts : (c2Items.map (fun it => it.1)).Pairwise (· < ·) := by
    have hmap : c2Items.map (fun it => it.1)
        = (List.range 201).map (fun n => ((n : ℕ) : ℚ)) := by decide
    rw [hmap]
    exact (List.pairwise_lt_range 201).map _
      (fun a b hab => by exact_mod_cast hab)
  refine ⟨by decide, hnd, ?_⟩
  exact (cache_response_eviction_spec.2 c2Items c2It0 c2Items.tail hcons
    (by decide) hnd hts).2.1

end Gita
